import Mathlib

/-!
Shallow embedding of the Orchids website-scraper backend
(`backend/app/scraper.py`, `backend/app/utils.py`).

An HTML document is modelled as the flat list of its elements in document
order; each element carries its tag name, attribute list and the text that
`get_text()` would return for it.  The pure extraction helpers of
`WebsiteScraper` are translated function by function; the retry decorator,
the cloud-to-local fallback state and the cleanup path are modelled as
explicit state passing.
-/

namespace Orchids

deriving instance DecidableEq for Except

/-- One HTML attribute. -/
structure Attr where
  key : String
  val : String
deriving Repr, DecidableEq

/-- One HTML element: tag name, attributes, and its `get_text()` text. -/
structure Element where
  tag : String
  attrs : List Attr := []
  text : String := ""
deriving Repr, DecidableEq

/-- A document is its elements in document order. -/
abbrev Doc := List Element

/-- First value of the attribute named `n`, if present
(`el.get(n)` / `el.getAttribute(n)`). -/
def getAttr (e : Element) (n : String) : Option String :=
  (e.attrs.find? (fun a => a.key == n)).map (fun a => a.val)

/-- `soup.find_all(t)`: all elements with the given tag, in document order. -/
def findAll (doc : Doc) (t : String) : List Element :=
  doc.filter (fun e => e.tag == t)

/-- `soup.find(t)`: the first element with the given tag. -/
def findFirst (doc : Doc) (t : String) : Option Element :=
  (findAll doc t).head?

/-- Python `str.strip()`: drop whitespace from both ends.  (Defined over
the character list so that it evaluates by kernel reduction.) -/
def pyStrip (s : String) : String :=
  String.mk (((s.data.dropWhile Char.isWhitespace).reverse.dropWhile
    Char.isWhitespace).reverse)

/-- Python `str.startswith` / `String.startsWith`, over character lists. -/
def strStartsWith (s pre : String) : Bool :=
  pre.data.isPrefixOf s.data

/-- Python `str.lower()`, over character lists. -/
def strToLower (s : String) : String :=
  String.mk (s.data.map Char.toLower)

/-- Words of a character list, split on whitespace runs.  The fuel (first
argument) only bounds the recursion depth; every call site passes the list
length, which the scan never exceeds since each step consumes at least one
character. -/
def wsWordsF : Nat → List Char → List String
  | _, [] => []
  | 0, _ :: _ => []
  | fuel + 1, c :: t =>
    if c.isWhitespace then wsWordsF fuel t
    else
      let w := (c :: t).takeWhile (fun d => !d.isWhitespace)
      String.mk w :: wsWordsF fuel ((c :: t).drop w.length)

/-- Python `str.split()` on whitespace, dropping empty parts (the way
BeautifulSoup splits a multi-valued attribute such as `class`). -/
def splitWS (s : String) : List String :=
  wsWordsF s.data.length s.data

/-- `' '.join(parts)`. -/
def joinSep (sep : String) : List String → String
  | [] => ""
  | [x] => x
  | x :: y :: t => x ++ sep ++ joinSep sep (y :: t)

/-- Occurrence test used to model Python `needle in hay`: drops characters
from the front of `hay` until `needle` is a prefix. -/
def afterSub (needle : List Char) : List Char → Option (List Char)
  | [] => if needle.isEmpty then some [] else none
  | c :: t =>
    if needle.isPrefixOf (c :: t) then some ((c :: t).drop needle.length)
    else afterSub needle t

/-- Python `needle in hay` on strings. -/
def strContains (hay needle : String) : Bool :=
  (afterSub needle.data hay.data).isSome

/-- Characters of `hay` strictly before the first occurrence of `needle`
(whole of `hay` when `needle` does not occur). -/
def beforeSub (needle : List Char) : List Char → List Char
  | [] => []
  | c :: t =>
    if needle.isPrefixOf (c :: t) then []
    else c :: beforeSub needle t

/-- `urlparse(url).netloc`: the authority between `"://"` and the first of
`/`, `?`, `#`; empty when the URL has no `"://"`. -/
def netloc (url : String) : String :=
  match afterSub "://".data url.data with
  | none => ""
  | some rest =>
    String.mk (rest.takeWhile (fun c => c ≠ '/' && c ≠ '?' && c ≠ '#'))

/-- Scheme part of a URL (characters before `"://"`). -/
def schemeOf (url : String) : String :=
  match afterSub "://".data url.data with
  | none => ""
  | some _ => String.mk (beforeSub "://".data url.data)

/-- `scheme://netloc` of a URL. -/
def schemeHost (url : String) : String :=
  match afterSub "://".data url.data with
  | none => ""
  | some _ => schemeOf url ++ "://" ++ netloc url

/-- Does the string start with `letters:` (a URL scheme)? -/
def hasScheme (s : String) : Bool :=
  let letters := s.data.takeWhile Char.isAlpha
  decide (1 ≤ letters.length) && (s.data.drop letters.length).head? == some ':'

/-- Path of an absolute URL up to and including its last `/`
(the resolution base for a relative reference). -/
def dirOf (url : String) : String :=
  match afterSub "://".data url.data with
  | none => url
  | some rest =>
    let path := rest.drop (netloc url).length
    if path.contains '/' then
      schemeHost url ++ String.mk (path.reverse.dropWhile (fun c => c ≠ '/')).reverse
    else schemeHost url ++ "/"

/-- Model of `urllib.parse.urljoin` on the inputs the scraper feeds it
(absolute, host-relative and path-relative references; dot segments are
not normalized — no extracted property inspects joined URLs). -/
def urljoin (base rel : String) : String :=
  if rel == "" then base
  else if hasScheme rel then rel
  else if strStartsWith rel "//" then schemeOf base ++ ":" ++ rel
  else if strStartsWith rel "/" then schemeHost base ++ rel
  else dirOf base ++ rel

/-! ### Title, meta description, language -/

/-- `_extract_title`: text of the first `<title>`, else `"Untitled"`. -/
def extract_title (doc : Doc) : String :=
  match findFirst doc "title" with
  | some t => pyStrip t.text
  | none => "Untitled"

/-- Is `e` a `<meta>` element whose attribute `k` equals `v`? -/
def isMetaWith (e : Element) (k v : String) : Bool :=
  e.tag == "meta" && getAttr e k == some v

/-- `_extract_meta_description`: `meta[name=description]`, else
`meta[property=og:description]`, else empty. -/
def extract_meta_description (doc : Doc) : String :=
  match (doc.filter (fun e => isMetaWith e "name" "description")).head? with
  | some m => pyStrip ((getAttr m "content").getD "")
  | none =>
    match (doc.filter (fun e => isMetaWith e "property" "og:description")).head? with
    | some m => pyStrip ((getAttr m "content").getD "")
    | none => ""

/-- `_extract_language`: a non-empty `lang` on the first `<html>` wins; else
the first `meta[http-equiv=content-language]` content (default empty); else
`"en"`. -/
def extract_language (doc : Doc) : String :=
  let fromMeta :=
    match (doc.filter (fun e => isMetaWith e "http-equiv" "content-language")).head? with
    | some m => some ((getAttr m "content").getD "")
    | none => none
  match findFirst doc "html" with
  | some h =>
    match getAttr h "lang" with
    | some l => if l ≠ "" then l else fromMeta.getD "en"
    | none => fromMeta.getD "en"
  | none => fromMeta.getD "en"

/-! ### Links (`_extract_links`) -/

/-- One extracted link record. -/
structure LinkData where
  href : String
  text : String
  title : String
  target : String
  classes : String
  rel : String
deriving Repr, DecidableEq

/-- The five link buckets returned by `_extract_links`. -/
structure LinkInfo where
  internal : List LinkData := []
  external : List LinkData := []
  email : List LinkData := []
  phone : List LinkData := []
  download : List LinkData := []
deriving Repr, DecidableEq

/-- The five link categories. -/
inductive LinkCat
  | internal
  | external
  | email
  | phone
  | download
deriving Repr, DecidableEq

/-- Extensions treated as downloads. -/
def downloadExts : List String := [".pdf", ".doc", ".zip", ".mp3", ".mp4"]

/-- The categorization chain of `_extract_links`: `mailto:` → email,
`tel:` → phone, a download extension occurring anywhere in the lowercased
href → download, `http(s)` href → internal when the base domain occurs as a
substring of the href (`base_domain in href`) else external, anything
else → internal. -/
def categorize (baseDomain href : String) : LinkCat :=
  if strStartsWith href "mailto:" then LinkCat.email
  else if strStartsWith href "tel:" then LinkCat.phone
  else if downloadExts.any (fun ext => strContains (strToLower href) ext) then LinkCat.download
  else if strStartsWith href "http://" || strStartsWith href "https://" then
    if strContains href baseDomain then LinkCat.internal else LinkCat.external
  else LinkCat.internal

/-- The per-link record built by `_extract_links`. -/
def mkLinkData (e : Element) (href : String) : LinkData :=
  { href := href
    text := pyStrip e.text
    title := (getAttr e "title").getD ""
    target := (getAttr e "target").getD ""
    classes := joinSep " " (splitWS ((getAttr e "class").getD ""))
    rel := joinSep " " (splitWS ((getAttr e "rel").getD "")) }

/-- Append a link to the bucket of its category. -/
def addLink (li : LinkInfo) (c : LinkCat) (ld : LinkData) : LinkInfo :=
  match c with
  | LinkCat.internal => { li with internal := li.internal ++ [ld] }
  | LinkCat.external => { li with external := li.external ++ [ld] }
  | LinkCat.email => { li with email := li.email ++ [ld] }
  | LinkCat.phone => { li with phone := li.phone ++ [ld] }
  | LinkCat.download => { li with download := li.download ++ [ld] }

/-- Bucket of a category. -/
def bucketGet (li : LinkInfo) (c : LinkCat) : List LinkData :=
  match c with
  | LinkCat.internal => li.internal
  | LinkCat.external => li.external
  | LinkCat.email => li.email
  | LinkCat.phone => li.phone
  | LinkCat.download => li.download

/-- `soup.find_all('a', href=True)`. -/
def aTags (doc : Doc) : List Element :=
  doc.filter (fun e => e.tag == "a" && (getAttr e "href").isSome)

/-- Stripped href of an anchor. -/
def hrefOf (e : Element) : String :=
  pyStrip ((getAttr e "href").getD "")

/-- Does this anchor survive the `if not href: continue` filter? -/
def usableAnchor (e : Element) : Bool :=
  hrefOf e ≠ ""

/-- Loop body of `_extract_links`. -/
def linkStep (baseDomain : String) (li : LinkInfo) (e : Element) : LinkInfo :=
  let href := hrefOf e
  if href == "" then li
  else addLink li (categorize baseDomain href) (mkLinkData e href)

/-- `_extract_links`: the first 100 anchors with an `href` attribute are
categorized (anchors whose stripped href is empty are skipped inside that
window). -/
def extract_links (doc : Doc) (baseUrl : String) : LinkInfo :=
  ((aTags doc).take 100).foldl (linkStep (netloc baseUrl)) {}

/-- Total number of links over the five buckets. -/
def totalLinks (li : LinkInfo) : Nat :=
  li.internal.length + li.external.length + li.email.length +
    li.phone.length + li.download.length

/-! ### Images (`_extract_images`) -/

/-- One extracted image record. -/
structure ImageData where
  src : String
  alt : String
  title : String
  width : String
  height : String
  classes : String
  loading : String
  srcset : String
  sizes : String
  data_src : String
  is_decorative : Bool
deriving Repr, DecidableEq

/-- `_extract_images`: every one of the first 30 `<img>` tags yields a
record (no filtering); a non-empty `src` is absolutized. -/
def extract_images (doc : Doc) (baseUrl : String) : List ImageData :=
  ((findAll doc "img").take 30).map (fun img =>
    let src0 := (getAttr img "src").getD ""
    let src :=
      if src0 ≠ "" then
        if strStartsWith src0 "//" then "https:" ++ src0
        else if strStartsWith src0 "/" then urljoin baseUrl src0
        else if !(strStartsWith src0 "http://" || strStartsWith src0 "https://") then
          urljoin baseUrl src0
        else src0
      else src0
    { src := src
      alt := (getAttr img "alt").getD ""
      title := (getAttr img "title").getD ""
      width := (getAttr img "width").getD ""
      height := (getAttr img "height").getD ""
      classes := joinSep " " (splitWS ((getAttr img "class").getD ""))
      loading := (getAttr img "loading").getD ""
      srcset := (getAttr img "srcset").getD ""
      sizes := (getAttr img "sizes").getD ""
      data_src := (getAttr img "data-src").getD ""
      is_decorative := pyStrip ((getAttr img "alt").getD "") == "" })

/-! ### Colors and fonts (`_extract_colors`, `_extract_fonts`) -/

/-- Hexadecimal digit. -/
def isHexDig (c : Char) : Bool :=
  c.isDigit || ('a' ≤ c && c ≤ 'f') || ('A' ≤ c && c ≤ 'F')

/-- `re.findall` of `#[0-9a-fA-F]{3,6}`: left-to-right, non-overlapping,
greedy up to 6 hex digits, at least 3.  Each step consumes at least one
character, so the list length is enough fuel. -/
def scanHexColorsF : Nat → List Char → List String
  | _, [] => []
  | 0, _ :: _ => []
  | fuel + 1, c :: rest =>
    if c = '#' then
      let digits := (rest.takeWhile isHexDig).take 6
      if 3 ≤ digits.length then
        String.mk ('#' :: digits) :: scanHexColorsF fuel (rest.drop digits.length)
      else scanHexColorsF fuel rest
    else scanHexColorsF fuel rest

/-- Hex-color scan of a character list. -/
def scanHexColors (l : List Char) : List String :=
  scanHexColorsF l.length l

/-- `re.findall` of `rgb\([^)]+\)`: a literal `rgb(` then at least one
non-`)` character then `)`. -/
def scanRgbF : Nat → List Char → List String
  | _, [] => []
  | 0, _ :: _ => []
  | fuel + 1, c :: rest =>
    if "rgb(".data.isPrefixOf (c :: rest) then
      let after := rest.drop 3
      let body := after.takeWhile (fun d => d ≠ ')')
      if 1 ≤ body.length && decide (body.length < after.length) then
        String.mk ("rgb(".data ++ body ++ [')']) :: scanRgbF fuel (after.drop (body.length + 1))
      else scanRgbF fuel rest
    else scanRgbF fuel rest

/-- `rgb()` scan of a character list. -/
def scanRgb (l : List Char) : List String :=
  scanRgbF l.length l

/-- Insertion into a Python `set`, modelled as an insertion-ordered
duplicate-free list (only the size of the set is relied upon). -/
def insertNew (l : List String) (s : String) : List String :=
  if s ∈ l then l else l ++ [s]

/-- Elements carrying a `style` attribute (`soup.find_all(style=True)`). -/
def styledElements (doc : Doc) : List Element :=
  doc.filter (fun e => (getAttr e "style").isSome)

/-- `_extract_colors`: hex and `rgb()` tokens from inline `style`
attributes and `<style>` bodies, deduplicated, first 30. -/
def extract_colors (doc : Doc) : List String :=
  let s1 := (styledElements doc).foldl (fun acc e =>
    let st := (getAttr e "style").getD ""
    (scanHexColors st.data ++ scanRgb st.data).foldl insertNew acc) []
  let s2 := (findAll doc "style").foldl (fun acc e =>
    (scanHexColors e.text.data ++ scanRgb e.text.data).foldl insertNew acc) s1
  s2.take 30

/-- Replace double quotes by single quotes (`.replace('"', "'")`). -/
def swapQuotes (s : String) : String :=
  String.mk (s.data.map (fun c => if c = '"' then '\'' else c))

/-- `re.findall` of `font-family:\s*([^;]+)` with `IGNORECASE`: the match
consumes the segment up to the next `;`; the greedy `\s*` yields as little
as needed so that `[^;]+` keeps at least one character. -/
def scanFontFamiliesF : Nat → List Char → List String
  | _, [] => []
  | 0, _ :: _ => []
  | fuel + 1, c :: rest =>
    if "font-family:".data.isPrefixOf ((c :: rest).map Char.toLower) then
      let after := rest.drop 11
      let seg := after.takeWhile (fun d => d ≠ ';')
      if seg.isEmpty then scanFontFamiliesF fuel rest
      else
        let ws := (seg.takeWhile Char.isWhitespace).length
        let cap := seg.drop (min ws (seg.length - 1))
        String.mk cap :: scanFontFamiliesF fuel (after.drop seg.length)
    else scanFontFamiliesF fuel rest

/-- `font-family` capture scan of a character list. -/
def scanFontFamilies (l : List Char) : List String :=
  scanFontFamiliesF l.length l

/-- Post-processing of one captured font family: strip, then swap quotes. -/
def normFont (s : String) : String :=
  swapQuotes (pyStrip s)

/-- `_extract_fonts`: inline `style` attributes contribute their first
`font-family` capture (guarded by a case-sensitive `'font-family' in style`
check), `<style>` bodies contribute all captures; deduplicated, first 15. -/
def extract_fonts (doc : Doc) : List String :=
  let s1 := (styledElements doc).foldl (fun acc e =>
    let st := (getAttr e "style").getD ""
    if strContains st "font-family" then
      match (scanFontFamilies st.data).head? with
      | some cap => insertNew acc (normFont cap)
      | none => acc
    else acc) []
  let s2 := (findAll doc "style").foldl (fun acc e =>
    (scanFontFamilies e.text.data).foldl (fun a cap => insertNew a (normFont cap)) acc) s1
  s2.take 15

/-! ### Headings (`_analyze_structure`, headings part) -/

/-- One extracted heading. -/
structure Heading where
  level : Nat
  text : String
  id : Option String
  classes : List String
  position : Nat
deriving Repr, DecidableEq

/-- The six heading levels, in the order the extraction loop visits them. -/
def headingLevels : List Nat := [1, 2, 3, 4, 5, 6]

/-- Tag name of a heading level. -/
def hTag (i : Nat) : String := "h" ++ toString i

/-- Heading record for level `i` appended to an accumulator of length
`pos` (`'position': len(headings)` at append time). -/
def mkHeading (i : Nat) (e : Element) (pos : Nat) : Heading :=
  { level := i
    text := pyStrip e.text
    id := getAttr e "id"
    classes := splitWS ((getAttr e "class").getD "")
    position := pos }

/-- Inner loop body: `headings.append({..., 'position': len(headings)})`. -/
def headingStep (i : Nat) (acc : List Heading) (e : Element) : List Heading :=
  acc ++ [mkHeading i e acc.length]

/-- Outer loop body: one heading level. -/
def headingLevelStep (doc : Doc) (acc : List Heading) (i : Nat) : List Heading :=
  (findAll doc (hTag i)).foldl (headingStep i) acc

/-- The headings loop of `_analyze_structure`: for `i` in 1..6, append all
`h{i}` elements, recording the running length as `position`. -/
def extract_headings (doc : Doc) : List Heading :=
  headingLevels.foldl (headingLevelStep doc) []

/-- Is the tag one of `h1`..`h6`? -/
def isHeadingTag (t : String) : Bool :=
  headingLevels.any (fun i => t == hTag i)

/-- The heading elements of a document in document order (the order the
claim asserts for the extracted list). -/
def docOrderHeadings (doc : Doc) : List Element :=
  doc.filter (fun e => isHeadingTag e.tag)

/-! ### Responsive design (`_detect_responsive_design`) -/

/-- One breakpoint measurement (obtained by resizing the live page; its
contents are opaque to the responsiveness verdict). -/
structure BreakpointTest where
  width : Nat
  bodyWidth : Nat
  fontSize : String
  containerMaxWidth : String
deriving Repr, DecidableEq

/-- Result record of `_detect_responsive_design`. -/
structure ResponsiveInfo where
  viewport_meta : Option String
  breakpoint_tests : List BreakpointTest
  is_responsive : Bool
  has_media_queries : Bool
deriving Repr, DecidableEq

/-- Is `e` the kind of element `querySelector('meta[name="viewport"]')`
matches? -/
def isViewportMeta (e : Element) : Bool :=
  isMetaWith e "name" "viewport"

/-- The in-page query: content attribute of the first viewport meta
(`null` both when the tag or its `content` attribute is absent). -/
def viewportMetaOf (doc : Doc) : Option String :=
  ((doc.filter isViewportMeta).head?).bind (fun m => getAttr m "content")

/-- `_detect_responsive_design`: the breakpoint measurements are passed in
(they come from live resizing); the verdict
`is_responsive = viewport_meta is not None and 'width=device-width' in viewport_meta`
uses only the meta tag. -/
def detect_responsive_design (doc : Doc) (bps : List BreakpointTest) : ResponsiveInfo :=
  { viewport_meta := viewportMetaOf doc
    breakpoint_tests := bps
    is_responsive :=
      match viewportMetaOf doc with
      | some c => strContains c "width=device-width"
      | none => false
    has_media_queries :=
      match bps with
      | [] => false
      | b0 :: rest => rest.any (fun bp => bp.containerMaxWidth ≠ b0.containerMaxWidth) }

/-! ### Retry with backoff (`utils.retry_async`) -/

/-- Result of a retried call: how many attempts ran, the sleeps issued
between them (seconds), the scraper state after the call, and the final
outcome. -/
structure RetrySt (σ α : Type) where
  attemptsMade : Nat
  sleeps : List ℚ
  finalState : σ
  result : Except String α
deriving Repr

/-- The loop of `retry_async`'s wrapper, threading mutable object state
through the attempts: `remaining` is `max_retries - attempt`; on the last
allowed attempt the exception is re-raised without sleeping, otherwise the
wrapper sleeps `delay * backoff_factor ** attempt` and retries. -/
def retryLoopSt (body : Nat → σ → σ × Except String α) (delay backoff : ℚ) :
    Nat → Nat → List ℚ → σ → RetrySt σ α
  | 0, attempt, sl, st =>
    match body attempt st with
    | (st2, r) => ⟨attempt + 1, sl, st2, r⟩
  | remaining + 1, attempt, sl, st =>
    match body attempt st with
    | (st2, Except.ok a) => ⟨attempt + 1, sl, st2, Except.ok a⟩
    | (st2, Except.error _) =>
      retryLoopSt body delay backoff remaining (attempt + 1)
        (sl ++ [delay * backoff ^ attempt]) st2

/-- `retry_async(max_retries, delay, backoff_factor)` applied to a
stateless body: `f n` is the outcome of attempt `n`. -/
def retry_run (maxRetries : Nat) (delay backoff : ℚ) (f : Nat → Except String α) :
    RetrySt Unit α :=
  retryLoopSt (fun n s => (s, f n)) delay backoff maxRetries 0 [] ()

/-! ### Orchestration state (`scrape_website`'s fallback flag) -/

/-- The mutable `WebsiteScraper` attribute consulted by `scrape_website`. -/
structure ScraperState where
  use_browserbase : Bool
deriving Repr, DecidableEq

/-- One un-retried `scrape_website` body run: when `use_browserbase` is
set, try the cloud path; on its failure clear the flag on the instance and
fall back to the local path; when the flag is clear go local directly.
`bb` and `loc` are the outcomes of the cloud and local paths. -/
def scrapeAttempt (bb loc : Except String α) (st : ScraperState) :
    ScraperState × Except String α :=
  if st.use_browserbase then
    match bb with
    | Except.ok s => (st, Except.ok s)
    | Except.error _ => ({ use_browserbase := false }, loc)
  else (st, loc)

/-- `scrape_website` as decorated by `@retry_async(max_retries=3)`:
the body is retried on the same scraper instance, so the fallback flag
threads through attempts and survives the call.  `bb n` / `loc n` are the
cloud / local outcomes on attempt `n`. -/
def scrape_website_call (bb loc : Nat → Except String α) (st : ScraperState) :
    RetrySt ScraperState α :=
  retryLoopSt (fun n s => scrapeAttempt (bb n) (loc n) s) 1 2 3 0 [] st

/-! ### Cleanup (`WebsiteScraper.cleanup`) -/

/-- The four browser resources. -/
inductive Res
  | page
  | context
  | browser
  | playwright
deriving Repr, DecidableEq

/-- Which resources the instance currently holds (the attributes that are
not `None`). -/
structure Resources where
  page : Bool
  context : Bool
  browser : Bool
  playwright : Bool
deriving Repr, DecidableEq

/-- The order `cleanup` closes resources in. -/
def closeOrder : List Res := [Res.page, Res.context, Res.browser, Res.playwright]

/-- Does the instance hold resource `r`? -/
def hasRes (st : Resources) : Res → Bool
  | Res.page => st.page
  | Res.context => st.context
  | Res.browser => st.browser
  | Res.playwright => st.playwright

/-- Drop resource `r` (the `self.x = None` after a successful close). -/
def clearRes (st : Resources) : Res → Resources
  | Res.page => { st with page := false }
  | Res.context => { st with context := false }
  | Res.browser => { st with browser := false }
  | Res.playwright => { st with playwright := false }

/-- The `try` body of `cleanup`: walk the close order; a failing close
raises, aborting the remaining closes (the attribute of the failed resource
is not reset).  Returns the resources left, the close calls issued in
order, and the exception if one was raised. -/
def cleanupBody (fails : Res → Bool) : List Res → Resources → List Res →
    Resources × List Res × Option String
  | [], st, acc => (st, acc, none)
  | r :: rest, st, acc =>
    if hasRes st r then
      if fails r then (st, acc ++ [r], some "close failed")
      else cleanupBody fails rest (clearRes st r) (acc ++ [r])
    else cleanupBody fails rest st acc

/-- Trace of one `cleanup` call. -/
structure CleanupTrace where
  finalRes : Resources
  attempts : List Res
  raised : Option String
deriving Repr, DecidableEq

/-- `cleanup`: run the close sequence; `except Exception` logs and swallows
whatever the body raised, so the call always returns normally. -/
def cleanup (fails : Res → Bool) (st : Resources) : CleanupTrace :=
  match cleanupBody fails closeOrder st [] with
  | (st2, att, _) => ⟨st2, att, none⟩

/-! ### Page data and orchestration (`_extract_page_data`,
`_extract_comprehensive_data`) -/

/-- The fields of the scraped-site record the verified claims inspect. -/
structure PageData where
  url : String
  title : String
  meta_description : String
  language : String
  headings : List Heading
  images : List ImageData
  links : LinkInfo
  colors : List String
  fonts : List String
deriving Repr, DecidableEq

/-- `_extract_page_data(url, html_content, soup)`: the record's `url` field
is the `url` argument, verbatim. -/
def extract_page_data (url : String) (doc : Doc) : PageData :=
  { url := url
    title := extract_title doc
    meta_description := extract_meta_description doc
    language := extract_language doc
    headings := extract_headings doc
    images := extract_images doc url
    links := extract_links doc url
    colors := extract_colors doc
    fonts := extract_fonts doc }

/-- A navigated page: the URL the orchestrator requested, the final URL
after redirects (`page.url`, which the code never reads), and the rendered
document. -/
structure Page where
  requestedUrl : String
  finalUrl : String
  doc : Doc
deriving Repr, DecidableEq

/-- `_extract_comprehensive_data(page, url)` as called by the scrape paths:
the `url` argument is the requested URL passed down from `scrape_website`. -/
def extract_comprehensive_data (p : Page) : PageData :=
  extract_page_data p.requestedUrl p.doc

/-! ### Spec-side definitions (the claims' own wording, for comparison) -/

/-- Claim C1's categorization of an http(s) link: external when the href's
host differs from the base URL's host (a host comparison, unlike the
code's substring test). -/
def specCategory (baseUrl href : String) : LinkCat :=
  if strStartsWith href "mailto:" then LinkCat.email
  else if strStartsWith href "tel:" then LinkCat.phone
  else if downloadExts.any (fun ext => strContains (strToLower href) ext) then LinkCat.download
  else if (strStartsWith href "http://" || strStartsWith href "https://") &&
      netloc href ≠ netloc baseUrl then LinkCat.external
  else LinkCat.internal

/-- Claim C4's condition: some `meta[name=viewport]` element has a
`content` attribute containing `width=device-width`. -/
def specHasResponsiveMeta (doc : Doc) : Bool :=
  doc.any (fun e => isViewportMeta e &&
    ((getAttr e "content").map (fun c => strContains c "width=device-width")).getD false)

/-! ### Concrete fixtures used by counterexamples and witnesses -/

/-- Base URL used by the link fixtures. -/
def exBase : String := "https://example.com/"

/-- A cross-host anchor whose query string mentions the base domain. -/
def crossHostHref : String := "https://evil.org/?from=example.com"

/-- Document with a single cross-host anchor. -/
def c1doc : Doc := [{ tag := "a", attrs := [⟨"href", crossHostHref⟩], text := "partner" }]

/-- Document with a single mailto anchor. -/
def c1wdoc : Doc := [{ tag := "a", attrs := [⟨"href", "mailto:team@example.com"⟩], text := "mail" }]

/-- An `<h2>` before an `<h1>`. -/
def c2doc : Doc := [{ tag := "h2", text := "A" }, { tag := "h1", text := "B" }]

/-- Attempt outcomes: three navigation failures, then success. -/
def c3fail3 : Nat → Except String Nat :=
  fun n => if n < 3 then Except.error "nav timeout" else Except.ok 7

/-- Attempt outcomes: two navigation failures, then success. -/
def c3fail2 : Nat → Except String Nat :=
  fun n => if n < 2 then Except.error "nav timeout" else Except.ok 7

/-- Two viewport metas; only the second mentions `width=device-width`. -/
def c4doc : Doc :=
  [{ tag := "meta", attrs := [⟨"name", "viewport"⟩, ⟨"content", "initial-scale=1"⟩] },
   { tag := "meta",
     attrs := [⟨"name", "viewport"⟩, ⟨"content", "width=device-width, initial-scale=1"⟩] }]

/-- A single well-formed viewport meta. -/
def c4wdoc : Doc :=
  [{ tag := "meta",
     attrs := [⟨"name", "viewport"⟩, ⟨"content", "width=device-width, initial-scale=1"⟩] }]

/-- 101 anchors with an `href` attribute; the first href strips to empty,
the other 100 are usable. -/
def c6doc : Doc :=
  { tag := "a", attrs := [⟨"href", "   "⟩] } ::
    List.replicate 100 { tag := "a", attrs := [⟨"href", "/page"⟩], text := "p" }

/-- A redirected page whose `<title>` is whitespace-only. -/
def c7page : Page :=
  { requestedUrl := "http://example.com"
    finalUrl := "https://example.com/home"
    doc := [{ tag := "title", text := "  " }] }

/-- A page with no `<title>` element at all. -/
def c7wpage : Page :=
  { requestedUrl := "https://example.com", finalUrl := "https://example.com", doc := [] }

/-- A document whose `<html>` tag carries `lang="fr"`. -/
def c10doc : Doc := [{ tag := "html", attrs := [⟨"lang", "fr"⟩] }]

/-! ## Lemmas about `_extract_links` -/

theorem totalLinks_addLink (li : LinkInfo) (c : LinkCat) (ld : LinkData) :
    totalLinks (addLink li c ld) = totalLinks li + 1 := by
  cases c <;> simp [addLink, totalLinks] <;> omega

theorem mem_bucketGet_addLink {li : LinkInfo} {c c' : LinkCat} {ld ld' : LinkData}
    (h : ld' ∈ bucketGet (addLink li c ld) c') :
    ld' ∈ bucketGet li c' ∨ (c' = c ∧ ld' = ld) := by
  cases c <;> cases c' <;> simp_all [addLink, bucketGet]

theorem linkFold_sound (bd : String) (l : List Element) (li : LinkInfo)
    (h : ∀ c ld, ld ∈ bucketGet li c → categorize bd ld.href = c) :
    ∀ c ld, ld ∈ bucketGet (l.foldl (linkStep bd) li) c → categorize bd ld.href = c := by
  induction l generalizing li with
  | nil => exact h
  | cons e t ih =>
    simp only [List.foldl_cons]
    apply ih
    intro c ld hmem
    simp only [linkStep] at hmem
    split at hmem
    · exact h c ld hmem
    · rcases mem_bucketGet_addLink hmem with hold | ⟨hc, hld⟩
      · exact h c ld hold
      · rw [hld]
        simp only [mkLinkData]
        exact hc.symm

theorem linkFold_total (bd : String) (l : List Element) (li : LinkInfo) :
    totalLinks (l.foldl (linkStep bd) li) = totalLinks li + l.countP usableAnchor := by
  induction l generalizing li with
  | nil => simp
  | cons e t ih =>
    simp only [List.foldl_cons, List.countP_cons]
    rw [ih]
    by_cases he : hrefOf e = ""
    · simp [linkStep, usableAnchor, he]
    · simp [linkStep, usableAnchor, he, totalLinks_addLink]
      omega

theorem extract_links_total (doc : Doc) (baseUrl : String) :
    totalLinks (extract_links doc baseUrl) =
      ((aTags doc).take 100).countP usableAnchor := by
  unfold extract_links
  rw [linkFold_total]
  simp [totalLinks]

/-! ## Lemmas about the headings loop -/

/-- The level/text sequence produced by one level's inner loop. -/
theorem headingFold_map (i : Nat) (l : List Element) (acc : List Heading) :
    ((l.foldl (headingStep i) acc).map (fun h => (h.level, h.text))) =
      acc.map (fun h => (h.level, h.text)) ++ l.map (fun e => (i, pyStrip e.text)) := by
  induction l generalizing acc with
  | nil => simp
  | cons e t ih =>
    simp only [List.foldl_cons, List.map_cons]
    rw [ih]
    simp [headingStep, mkHeading]

/-- The level/text sequence produced by the whole headings loop. -/
theorem headingLevelsFold_map (doc : Doc) (levels : List Nat) (acc : List Heading) :
    ((levels.foldl (headingLevelStep doc) acc).map (fun h => (h.level, h.text))) =
      acc.map (fun h => (h.level, h.text)) ++
        (levels.map (fun i => (findAll doc (hTag i)).map (fun e => (i, pyStrip e.text)))).flatten := by
  induction levels generalizing acc with
  | nil => simp
  | cons i t ih =>
    simp only [List.foldl_cons, List.map_cons, List.flatten_cons]
    rw [ih]
    unfold headingLevelStep
    rw [headingFold_map]
    simp

/-- Appending an element whose recorded position is the current length
preserves "position = index". -/
theorem posOK_concat {l : List Heading} {x : Heading}
    (hl : ∀ (n : Nat) (h : Heading), l[n]? = some h → h.position = n)
    (hx : x.position = l.length) :
    ∀ (n : Nat) (h : Heading), (l ++ [x])[n]? = some h → h.position = n := by
  intro n h hn
  rw [List.getElem?_append] at hn
  by_cases hlt : n < l.length
  · rw [if_pos hlt] at hn
    exact hl n h hn
  · rw [if_neg hlt] at hn
    have hle : l.length ≤ n := Nat.le_of_not_lt hlt
    by_cases hz : n - l.length = 0
    · rw [hz] at hn
      simp only [List.getElem?_cons_zero] at hn
      cases hn
      rw [hx]
      omega
    · obtain ⟨k, hk⟩ : ∃ k, n - l.length = k + 1 := ⟨n - l.length - 1, by omega⟩
      rw [hk] at hn
      simp at hn

theorem headingFold_pos (i : Nat) (l : List Element) (acc : List Heading)
    (hacc : ∀ (n : Nat) (h : Heading), acc[n]? = some h → h.position = n) :
    ∀ (n : Nat) (h : Heading), (l.foldl (headingStep i) acc)[n]? = some h → h.position = n := by
  induction l generalizing acc with
  | nil => exact hacc
  | cons e t ih =>
    simp only [List.foldl_cons]
    exact ih _ (posOK_concat hacc rfl)

theorem headingLevelsFold_pos (doc : Doc) (levels : List Nat) (acc : List Heading)
    (hacc : ∀ (n : Nat) (h : Heading), acc[n]? = some h → h.position = n) :
    ∀ (n : Nat) (h : Heading),
      (levels.foldl (headingLevelStep doc) acc)[n]? = some h → h.position = n := by
  induction levels generalizing acc with
  | nil => exact hacc
  | cons i t ih =>
    simp only [List.foldl_cons]
    exact ih _ (headingFold_pos i _ acc hacc)

/-! ## Lemmas about the retry loop -/

theorem retryLoopSt_attempts_le (body : Nat → σ → σ × Except String α) (d b : ℚ) :
    ∀ remaining attempt sl st,
      (retryLoopSt body d b remaining attempt sl st).attemptsMade ≤
        attempt + remaining + 1 := by
  intro remaining
  induction remaining with
  | zero =>
    intro attempt sl st
    rcases hb : body attempt st with ⟨st2, r⟩
    simp [retryLoopSt, hb]
  | succ r ih =>
    intro attempt sl st
    rcases hb : body attempt st with ⟨st2, res⟩
    rcases res with e | a
    · calc (retryLoopSt body d b (r + 1) attempt sl st).attemptsMade
          = (retryLoopSt body d b r (attempt + 1)
              (sl ++ [d * b ^ attempt]) st2).attemptsMade := by
            simp [retryLoopSt, hb]
        _ ≤ (attempt + 1) + r + 1 := ih _ _ _
        _ = attempt + (r + 1) + 1 := by omega
    · simp [retryLoopSt, hb]

theorem retryLoopSt_sleeps (body : Nat → σ → σ × Except String α) (d b : ℚ) :
    ∀ remaining attempt sl st, ∃ j, j ≤ remaining ∧
      (retryLoopSt body d b remaining attempt sl st).sleeps =
        sl ++ (List.range' attempt j).map (fun k => d * b ^ k) := by
  intro remaining
  induction remaining with
  | zero =>
    intro attempt sl st
    refine ⟨0, Nat.le_refl 0, ?_⟩
    rcases hb : body attempt st with ⟨st2, r⟩
    simp [retryLoopSt, hb]
  | succ r ih =>
    intro attempt sl st
    rcases hb : body attempt st with ⟨st2, res⟩
    rcases res with e | a
    · obtain ⟨j, hj, heq⟩ := ih (attempt + 1) (sl ++ [d * b ^ attempt]) st2
      refine ⟨j + 1, by omega, ?_⟩
      have hred : (retryLoopSt body d b (r + 1) attempt sl st).sleeps
          = (retryLoopSt body d b r (attempt + 1)
              (sl ++ [d * b ^ attempt]) st2).sleeps := by
        simp [retryLoopSt, hb]
      rw [hred, heq, List.range'_succ]
      simp
    · exact ⟨0, Nat.zero_le _, by simp [retryLoopSt, hb]⟩

/-- A body that can only preserve or clear the fallback flag never sets it:
the flag after the retried call implies the flag before. -/
theorem retryLoopSt_state_mono (body : Nat → ScraperState → ScraperState × Except String α)
    (hbody : ∀ n s, ((body n s).1).use_browserbase = true → s.use_browserbase = true)
    (d b : ℚ) : ∀ remaining attempt sl st,
      (retryLoopSt body d b remaining attempt sl st).finalState.use_browserbase = true →
        st.use_browserbase = true := by
  intro remaining
  induction remaining with
  | zero =>
    intro attempt sl st h
    rcases hb : body attempt st with ⟨st2, r⟩
    have hfin : (retryLoopSt body d b 0 attempt sl st).finalState = st2 := by
      simp [retryLoopSt, hb]
    rw [hfin] at h
    have := hbody attempt st
    rw [hb] at this
    exact this h
  | succ r ih =>
    intro attempt sl st h
    rcases hb : body attempt st with ⟨st2, res⟩
    have hstep := hbody attempt st
    rw [hb] at hstep
    rcases res with e | a
    · have hfin : (retryLoopSt body d b (r + 1) attempt sl st).finalState =
          (retryLoopSt body d b r (attempt + 1) (sl ++ [d * b ^ attempt]) st2).finalState := by
        simp [retryLoopSt, hb]
      rw [hfin] at h
      exact hstep (ih _ _ _ h)
    · have hfin : (retryLoopSt body d b (r + 1) attempt sl st).finalState = st2 := by
        simp [retryLoopSt, hb]
      rw [hfin] at h
      exact hstep h

/-- A body that leaves the state untouched whenever the flag is already
clear keeps the whole retried call from touching it. -/
theorem retryLoopSt_state_frozen (body : Nat → ScraperState → ScraperState × Except String α)
    (hbody : ∀ n s, s.use_browserbase = false → (body n s).1 = s)
    (d b : ℚ) : ∀ remaining attempt sl st, st.use_browserbase = false →
      (retryLoopSt body d b remaining attempt sl st).finalState = st := by
  intro remaining
  induction remaining with
  | zero =>
    intro attempt sl st hst
    rcases hb : body attempt st with ⟨st2, r⟩
    have hs2 : st2 = st := by
      have := hbody attempt st hst
      rw [hb] at this
      exact this
    simp [retryLoopSt, hb, hs2]
  | succ r ih =>
    intro attempt sl st hst
    rcases hb : body attempt st with ⟨st2, res⟩
    have hs2 : st2 = st := by
      have := hbody attempt st hst
      rw [hb] at this
      exact this
    rcases res with e | a
    · have hfin : (retryLoopSt body d b (r + 1) attempt sl st).finalState =
          (retryLoopSt body d b r (attempt + 1) (sl ++ [d * b ^ attempt]) st2).finalState := by
        simp [retryLoopSt, hb]
      rw [hfin, hs2]
      exact ih _ _ _ hst
    · simp [retryLoopSt, hb, hs2]

/-! ## Lemmas about cleanup -/

/-- The close calls `cleanupBody` issues extend the accumulator with a
sublist of the close order (so they are always in order). -/
theorem cleanupBody_sublist (fails : Res → Bool) :
    ∀ (order : List Res) (st : Resources) (acc : List Res),
      ∃ s, (cleanupBody fails order st acc).2.1 = acc ++ s ∧ List.Sublist s order := by
  intro order
  induction order with
  | nil =>
    intro st acc
    exact ⟨[], by simp [cleanupBody], List.Sublist.refl _⟩
  | cons r rest ih =>
    intro st acc
    by_cases hr : hasRes st r
    · by_cases hf : fails r
      · exact ⟨[r], by simp [cleanupBody, hr, hf], by simp⟩
      · obtain ⟨s, hs, hsub⟩ := ih (clearRes st r) (acc ++ [r])
        refine ⟨r :: s, ?_, List.Sublist.cons₂ r hsub⟩
        simp [cleanupBody, hr, hf, hs]
    · obtain ⟨s, hs, hsub⟩ := ih st acc
      exact ⟨s, by simp [cleanupBody, hr, hs], hsub.cons r⟩

/-! ## Shared length lemmas -/

theorem extract_images_length (doc : Doc) (baseUrl : String) :
    (extract_images doc baseUrl).length = min 30 (findAll doc "img").length := by
  unfold extract_images
  rw [List.length_map, List.length_take]

/-! ## Claim C1 — link categorization -/

/-- C1 counterexample: for base URL `https://example.com/`, the anchor
`https://evil.org/?from=example.com` is on a different host, so the claim
files it under external; `_extract_links` files it under internal because
the base domain occurs as a substring of the href. -/
theorem extract_links_crosshost_counterexample :
    (extract_links c1doc exBase).external = [] ∧
    ((extract_links c1doc exBase).internal.map (fun ld => ld.href)) = [crossHostHref] ∧
    specCategory exBase crossHostHref = LinkCat.external := by decide

/-- C1 amended: every extracted link lands in exactly one bucket, chosen by
the precedence `mailto:` → email, `tel:` → phone, download extension →
download, else http(s) → internal when the base domain occurs as a
substring of the href and external otherwise, else internal (this is
`categorize`); the bucket sizes add up to the number of anchors with a
non-empty stripped href among the first 100 anchors, so each such link is
in exactly one category. -/
theorem extract_links_partition (doc : Doc) (baseUrl : String) :
    (∀ (c : LinkCat) (ld : LinkData), ld ∈ bucketGet (extract_links doc baseUrl) c →
      categorize (netloc baseUrl) ld.href = c) ∧
    totalLinks (extract_links doc baseUrl) =
      ((aTags doc).take 100).countP usableAnchor := by
  constructor
  · exact linkFold_sound _ _ _ (by intro c ld h; cases c <;> simp [bucketGet] at h)
  · exact extract_links_total doc baseUrl

/-- C1 witness: the amended theorem applied to a concrete mailto link. -/
theorem extract_links_partition_witness :
    categorize (netloc exBase)
      (mkLinkData { tag := "a", attrs := [⟨"href", "mailto:team@example.com"⟩], text := "mail" }
        "mailto:team@example.com").href = LinkCat.email ∧
    totalLinks (extract_links c1wdoc exBase) = 1 := by
  constructor
  · exact (extract_links_partition c1wdoc exBase).1 LinkCat.email _ (by decide)
  · rw [(extract_links_partition c1wdoc exBase).2]
    decide

/-! ## Claim C2 — heading order -/

/-- C2 counterexample: in `<h2>A</h2><h1>B</h1>` the document order is A
then B, but `_analyze_structure` walks the levels h1..h6 and emits B before
A, so the headings list is not in document order. -/
theorem extract_headings_order_counterexample :
    (extract_headings c2doc).map (fun h => h.text) ≠
      (docOrderHeadings c2doc).map (fun e => pyStrip e.text) := by decide

/-- C2 amended: the headings list is grouped by level — all h1 elements in
document order, then all h2, ..., then all h6 — and each heading's recorded
position equals its index in that produced (level-grouped) list, not in
document order. -/
theorem extract_headings_grouped (doc : Doc) :
    ((extract_headings doc).map (fun h => (h.level, h.text)) =
      (headingLevels.map (fun i =>
        (findAll doc (hTag i)).map (fun e => (i, pyStrip e.text)))).flatten) ∧
    (∀ (n : Nat) (h : Heading), (extract_headings doc)[n]? = some h → h.position = n) := by
  constructor
  · have := headingLevelsFold_map doc headingLevels []
    simpa [extract_headings] using this
  · exact headingLevelsFold_pos doc headingLevels []
      (by intro n h hn; simp at hn)

/-- C2 witness: on the fixture document the second produced heading (the
`<h2>`) records position 1. -/
theorem extract_headings_grouped_witness :
    (extract_headings c2doc)[1]? =
      some { level := 2, text := "A", id := none, classes := [], position := 1 } ∧
    ({ level := 2, text := "A", id := none, classes := [], position := 1 } : Heading).position
      = 1 := by
  refine ⟨by decide, ?_⟩
  exact (extract_headings_grouped c2doc).2 1 _ (by decide)

/-! ## Claim C3 — retry budget and backoff -/

/-- C3 counterexample: `@retry_async(max_retries=3)` loops over
`range(max_retries + 1)`, so three failing attempts followed by a success
still succeed — on the 4th full attempt, contradicting "at most 3 full
attempts in total". -/
theorem retry_attempts_counterexample :
    (retry_run 3 1 2 c3fail3).attemptsMade = 4 ∧
    (retry_run 3 1 2 c3fail3).result = Except.ok 7 ∧
    ¬((retry_run 3 1 2 c3fail3).attemptsMade ≤ 3) := by decide

/-- C3 amended: `scrape_website` under the retry decorator performs at most
4 full attempts (1 initial + `max_retries = 3` retries); the inter-attempt
delays are a prefix of 1s, 2s, 4s — starting at 1 second and doubling, so
strictly increasing; and when the first 2 attempts raise and the next
succeeds, the call succeeds after exactly 3 attempts with delays 1s, 2s. -/
theorem retry_budget_amended (f : Nat → Except String Nat) (e0 e1 : String) (a : Nat) :
    (retry_run 3 1 2 f).attemptsMade ≤ 4 ∧
    List.IsPrefix (retry_run 3 1 2 f).sleeps [1, 2, 4] ∧
    (f 0 = Except.error e0 → f 1 = Except.error e1 → f 2 = Except.ok a →
      (retry_run 3 1 2 f).result = Except.ok a ∧
      (retry_run 3 1 2 f).attemptsMade = 3 ∧
      (retry_run 3 1 2 f).sleeps = [1, 2]) := by
  refine ⟨?_, ?_, ?_⟩
  · exact retryLoopSt_attempts_le (fun n _ => ((), f n)) 1 2 3 0 [] ()
  · obtain ⟨j, hj, heq⟩ := retryLoopSt_sleeps (fun n _ => ((), f n)) 1 2 3 0 [] ()
    have heq2 : (retry_run 3 1 2 f).sleeps =
        (List.range' 0 j).map (fun k => (1 : ℚ) * 2 ^ k) := by
      simpa [retry_run] using heq
    rw [heq2]
    interval_cases j <;> norm_num [List.range']
  · intro h0 h1 h2
    refine ⟨?_, ?_, ?_⟩ <;> simp [retry_run, retryLoopSt, h0, h1, h2]

/-- C3 witness: the amended theorem at two failures followed by success. -/
theorem retry_budget_amended_witness :
    (retry_run 3 1 2 c3fail2).result = Except.ok 7 ∧
    (retry_run 3 1 2 c3fail2).attemptsMade = 3 ∧
    (retry_run 3 1 2 c3fail2).sleeps = [1, 2] :=
  (retry_budget_amended c3fail2 "nav timeout" "nav timeout" 7).2.2
    (by decide) (by decide) (by decide)

/-! ## Claim C4 — responsiveness verdict -/

/-- C4 counterexample: with two viewport metas where only the second
mentions `width=device-width`, the claim's condition holds (such a tag is
present) but `_detect_responsive_design` reports false, because the in-page
query reads only the first matching meta. -/
theorem detect_responsive_counterexample :
    (detect_responsive_design c4doc []).is_responsive = false ∧
    specHasResponsiveMeta c4doc = true := by decide

/-- C4 amended: `is_responsive` is independent of the breakpoint test
results, and is true iff the **first** `meta[name=viewport]` element has a
`content` attribute containing `width=device-width`; with no viewport meta
at all it is false. -/
theorem detect_responsive_amended (doc : Doc) (bps bps2 : List BreakpointTest) :
    ((detect_responsive_design doc bps).is_responsive =
      (detect_responsive_design doc bps2).is_responsive) ∧
    ((detect_responsive_design doc bps).is_responsive = true ↔
      ∃ c, viewportMetaOf doc = some c ∧ strContains c "width=device-width" = true) ∧
    (doc.filter isViewportMeta = [] →
      (detect_responsive_design doc bps).is_responsive = false) := by
  refine ⟨rfl, ?_, ?_⟩
  · cases h : viewportMetaOf doc <;> simp [detect_responsive_design, h]
  · intro hf
    have hnone : viewportMetaOf doc = none := by simp [viewportMetaOf, hf]
    simp [detect_responsive_design, hnone]

/-- C4 witness: a proper viewport meta yields true (via the amended iff),
and the empty document yields false. -/
theorem detect_responsive_amended_witness :
    (detect_responsive_design c4wdoc []).is_responsive = true ∧
    (detect_responsive_design ([] : Doc) []).is_responsive = false := by
  constructor
  · exact (detect_responsive_amended c4wdoc [] []).2.1.mpr
      ⟨"width=device-width, initial-scale=1", by decide, by decide⟩
  · exact (detect_responsive_amended ([] : Doc) [] []).2.2 rfl

/-! ## Claim C5 — collection caps -/

/-- C5: the extracted collections respect their caps — at most 30 images,
30 colors, 15 fonts, and at most 100 links over the five categories. -/
theorem extraction_caps (doc : Doc) (baseUrl : String) :
    (extract_images doc baseUrl).length ≤ 30 ∧
    (extract_colors doc).length ≤ 30 ∧
    (extract_fonts doc).length ≤ 15 ∧
    totalLinks (extract_links doc baseUrl) ≤ 100 := by
  refine ⟨?_, ?_, ?_, ?_⟩
  · rw [extract_images_length]
    exact min_le_left _ _
  · obtain ⟨l, hl⟩ : ∃ l, extract_colors doc = List.take 30 l := ⟨_, rfl⟩
    rw [hl, List.length_take]
    exact min_le_left _ _
  · obtain ⟨l, hl⟩ : ∃ l, extract_fonts doc = List.take 15 l := ⟨_, rfl⟩
    rw [hl, List.length_take]
    exact min_le_left _ _
  · rw [extract_links_total]
    have h1 := List.countP_le_length (p := usableAnchor) (l := (aTags doc).take 100)
    have h2 : ((aTags doc).take 100).length ≤ 100 := by
      rw [List.length_take]
      exact min_le_left _ _
    omega

/-! ## Claim C6 — caps are applied before filtering -/

set_option maxRecDepth 4000 in
/-- C6 counterexample: a document with 101 anchors, of which the first has
a whitespace-only href and the remaining 100 are usable, yields only 99
links: the `[:100]` window is sliced off before the empty-href filter, so
the claim's "still yields 100 extracted links" fails. -/
theorem cap_before_filter_counterexample :
    totalLinks (extract_links c6doc exBase) = 99 ∧
    c6doc.countP usableAnchor = 100 := by decide

/-- C6 amended: the caps are applied before filtering, not after: the link
extractor filters empty hrefs inside the window of the first 100 anchors
(so the total equals the usable-anchor count of that window, and can fall
short of 100 even when 100 usable anchors exist), and the image extractor
keeps the first 30 `<img>` tags with no filtering at all. -/
theorem caps_applied_before_filter (doc : Doc) (baseUrl : String) :
    totalLinks (extract_links doc baseUrl) =
      ((aTags doc).take 100).countP usableAnchor ∧
    (extract_images doc baseUrl).length = min 30 (findAll doc "img").length :=
  ⟨extract_links_total doc baseUrl, extract_images_length doc baseUrl⟩

/-! ## Claim C7 — returned url and title -/

/-- C7 counterexample: on a redirected page, the record's `url` is the
requested URL, not the final post-redirect URL, and a whitespace-only
`<title>` makes the title empty — both halves of the claim fail. -/
theorem scraped_url_title_counterexample :
    (extract_comprehensive_data c7page).url ≠ c7page.finalUrl ∧
    (extract_comprehensive_data c7page).title = "" := by decide

/-- C7 amended: the record's `url` equals the requested URL (redirects are
not reflected); when the document has no `<title>` element the title falls
back to the non-empty default `"Untitled"` — but a present `<title>` whose
text is all whitespace yields an empty title. -/
theorem scraped_url_title_amended (p : Page) :
    (extract_comprehensive_data p).url = p.requestedUrl ∧
    (findAll p.doc "title" = [] →
      (extract_comprehensive_data p).title = "Untitled" ∧
      (extract_comprehensive_data p).title ≠ "") := by
  refine ⟨rfl, ?_⟩
  intro h
  have ht : (extract_comprehensive_data p).title = "Untitled" := by
    simp [extract_comprehensive_data, extract_page_data, extract_title, findFirst, h]
  exact ⟨ht, by rw [ht]; decide⟩

/-- C7 witness: the amended theorem on a page with no title element. -/
theorem scraped_url_title_amended_witness :
    (extract_comprehensive_data c7wpage).url = c7wpage.requestedUrl ∧
    (extract_comprehensive_data c7wpage).title = "Untitled" :=
  ⟨(scraped_url_title_amended c7wpage).1,
   ((scraped_url_title_amended c7wpage).2 rfl).1⟩

/-! ## Claim C8 — scraper state across calls -/

/-- C8 counterexample: when the cloud path fails and the local fallback
succeeds, the call returns a result but `use_browserbase` has flipped from
true to false — the instance state does not return to its pre-call value. -/
theorem scraper_state_counterexample :
    (scrape_website_call (fun _ => Except.error "cloud session failed")
      (fun _ => Except.ok (5 : Nat)) ⟨true⟩).result = Except.ok 5 ∧
    (scrape_website_call (fun _ => Except.error "cloud session failed")
      (fun _ => Except.ok (5 : Nat)) ⟨true⟩).finalState ≠ ⟨true⟩ := by decide

/-- C8 amended: the fallback flag is sticky rather than restored: it is
never set back to true by a call (final flag true implies it was true
before), a call starting with the flag clear leaves the state untouched
(so the fallback branch runs at most once per instance, hence at most once
per call), and a call whose first cloud attempt succeeds leaves the state
unchanged. -/
theorem scraper_state_amended (bb loc : Nat → Except String α)
    (st : ScraperState) (x : α) :
    ((scrape_website_call bb loc st).finalState.use_browserbase = true →
      st.use_browserbase = true) ∧
    (st.use_browserbase = false → (scrape_website_call bb loc st).finalState = st) ∧
    (st.use_browserbase = true → bb 0 = Except.ok x →
      (scrape_website_call bb loc st).finalState = st ∧
      (scrape_website_call bb loc st).result = Except.ok x) := by
  refine ⟨?_, ?_, ?_⟩
  · exact retryLoopSt_state_mono _
      (by
        intro n s h
        unfold scrapeAttempt at h
        by_cases hs : s.use_browserbase
        · exact hs
        · simp [hs] at h)
      1 2 3 0 [] st
  · intro hst
    exact retryLoopSt_state_frozen _
      (by
        intro n s h
        simp [scrapeAttempt, h])
      1 2 3 0 [] st hst
  · intro hst hbb
    constructor <;>
      simp [scrape_website_call, retryLoopSt, scrapeAttempt, hst, hbb]

/-- C8 witness: a call whose first cloud attempt succeeds leaves the
fallback flag intact. -/
theorem scraper_state_amended_witness :
    (scrape_website_call (fun _ => Except.ok (9 : Nat))
      (fun _ => Except.error "unused") ⟨true⟩).finalState = ⟨true⟩ ∧
    (scrape_website_call (fun _ => Except.ok (9 : Nat))
      (fun _ => Except.error "unused") ⟨true⟩).result = Except.ok 9 :=
  (scraper_state_amended (fun _ => Except.ok 9) (fun _ => Except.error "unused")
    ⟨true⟩ 9).2.2 rfl rfl

/-! ## Claim C9 — cleanup never raises -/

/-- C9: `cleanup` returns normally for every combination of failing closes
(the exception is swallowed), the close calls it issues always follow the
order page → context → browser → playwright, and when nothing fails every
held resource is closed and all attributes are reset. -/
theorem cleanup_never_raises (fails : Res → Bool) (st : Resources) :
    (cleanup fails st).raised = none ∧
    List.Sublist (cleanup fails st).attempts closeOrder ∧
    ((∀ r, fails r = false) →
      (cleanup fails st).attempts = closeOrder.filter (hasRes st) ∧
      (cleanup fails st).finalRes = ⟨false, false, false, false⟩) := by
  refine ⟨?_, ?_, ?_⟩
  · unfold cleanup
    rcases h : cleanupBody fails closeOrder st [] with ⟨st2, att, exc⟩
    simp
  · obtain ⟨s, hs, hsub⟩ := cleanupBody_sublist fails closeOrder st []
    unfold cleanup
    rcases h : cleanupBody fails closeOrder st [] with ⟨st2, att, exc⟩
    rw [h] at hs
    simp only [List.nil_append] at hs
    simpa [hs] using hsub
  · intro hnf
    rcases st with ⟨p, c, b, pl⟩
    cases p <;> cases c <;> cases b <;> cases pl <;>
      simp [cleanup, cleanupBody, closeOrder, hasRes, clearRes, hnf]

/-- C9 witness: a failing context close is swallowed; a fully failure-free
cleanup closes exactly the held resources in order. -/
theorem cleanup_never_raises_witness :
    (cleanup (fun r => r == Res.context) ⟨true, true, true, true⟩).raised = none ∧
    (cleanup (fun _ => false) ⟨true, true, false, true⟩).attempts =
      closeOrder.filter (hasRes ⟨true, true, false, true⟩) :=
  ⟨(cleanup_never_raises _ _).1,
   ((cleanup_never_raises (fun _ => false) ⟨true, true, false, true⟩).2.2
      (fun _ => rfl)).1⟩

/-! ## Claim C10 — language extraction -/

/-- C10: with no `lang` on the `<html>` tag and no
`meta[http-equiv=content-language]`, `_extract_language` returns the
default `"en"`; a non-empty `lang` attribute on the first `<html>` tag is
returned as-is. -/
theorem extract_language_spec (doc : Doc) :
    (((findFirst doc "html").bind (fun h => getAttr h "lang")) = none →
      doc.filter (fun e => isMetaWith e "http-equiv" "content-language") = [] →
      extract_language doc = "en") ∧
    (∀ (h : Element) (l : String), findFirst doc "html" = some h →
      getAttr h "lang" = some l → l ≠ "" → extract_language doc = l) := by
  constructor
  · intro hb hm
    have hmeta : (doc.filter (fun e => isMetaWith e "http-equiv" "content-language")).head?
        = none := by rw [hm]; rfl
    cases hfind : findFirst doc "html" with
    | none => simp [extract_language, hfind, hmeta]
    | some h =>
      have hlang : getAttr h "lang" = none := by
        rw [hfind] at hb
        simpa using hb
      simp [extract_language, hfind, hlang, hmeta]
  · intro h l hfind hlang hl
    simp [extract_language, hfind, hlang, hl]

/-- C10 witness: `lang="fr"` is returned; the empty document falls back to
`"en"`. -/
theorem extract_language_spec_witness :
    extract_language c10doc = "fr" ∧ extract_language ([] : Doc) = "en" :=
  ⟨(extract_language_spec c10doc).2 { tag := "html", attrs := [⟨"lang", "fr"⟩] } "fr"
      rfl rfl (by decide),
   (extract_language_spec ([] : Doc)).1 rfl rfl⟩

end Orchids




